import Mathlib

/-!
Verification of the result-materialization layer of `datajoint/fetch.py`.

The file embeds the module shallowly: the two fetch operations
(`Fetch.__call__` and `Fetch1.__call__`) together with the pure helpers
(`is_key`, `to_dicts`, `_flatten_attribute_list`) are translated to Lean
functions.  External collaborators that the module merely calls (the query
cursor, the blob codec `unpack`, the external store
`connection.schemas[db].external_table.get`, `Expression.proj`, the pandas
frame construction and numpy column extraction, and the configuration value
`config["fetch_format"]`) are modelled from the specification at their
documented interfaces.
-/

/-- Logical attribute values.  Raw stored payloads (scalars, encoded blob
bytes, content hashes) are `raw` strings; applying the blob codec or the
external store is recorded symbolically so that decoded values remain
distinguishable from stored ones. -/
inductive Value where
  | raw : String → Value
  | unpacked : Bool → Value → Value
  | external : String → Value → Value
deriving DecidableEq, Repr

/-- Modelled from the spec: the blob codec collaborator
`unpack(raw, squeeze)` (§6).  It is opaque to this layer, so it is modelled
as a free constructor application. -/
def unpack (v : Value) (squeeze : Bool) : Value := Value.unpacked squeeze v

/-- Modelled from the spec: the external store collaborator
`connection.schemas[db].external_table.get(hash)` (§6), opaque to this
layer. -/
def externalTableGet (db : String) (h : Value) : Value := Value.external db h

/-- Attribute descriptor, as in the spec data model (§3). -/
structure Attribute where
  name : String
  database : String
  is_blob : Bool
  is_external : Bool
deriving DecidableEq, Repr

/-- Heading: ordered attribute descriptors plus the ordered primary key. -/
structure Heading where
  attributes : List Attribute
  primary_key : List String
deriving DecidableEq, Repr

/-- Declaration-order attribute names of a heading. -/
def Heading.names (h : Heading) : List String := h.attributes.map Attribute.name

def defaultAttr (n : String) : Attribute :=
  { name := n, database := "", is_blob := false, is_external := false }

/-- Lookup `heading[name]`; total with a throwaway default for absent names. -/
def Heading.attr (h : Heading) (n : String) : Attribute :=
  (h.attributes.find? (fun a => a.name = n)).getD (defaultAttr n)

/-- First index of a column name in a name list. -/
def colIdx (n : String) : List String → Option Nat
  | [] => none
  | m :: ms => if m = n then some 0 else (colIdx n ms).map (· + 1)

/-- Value of column `n` in a positional row aligned with `names`. -/
def getValue (names : List String) (row : List Value) (n : String) : Value :=
  match colIdx n names with
  | some i => row.getD i (Value.raw "")
  | none => Value.raw ""

/-- Modelled from the spec: an `Expression` collaborator (§3) is a heading
together with its resolved rows (positional, aligned with the heading), in
the base order the query layer would return them without an ORDER BY. -/
structure Expression where
  heading : Heading
  data : List (List Value)
deriving DecidableEq, Repr

/-- Modelled from the spec: `Expression.proj(*attrs)` (§3) restricts the
expression to the named attributes plus the implicit primary key, keeping
declaration order and row order. -/
def Expression.proj (E : Expression) (attrs : List String) : Expression :=
  let keep : Attribute → Bool := fun a =>
    E.heading.primary_key.contains a.name || attrs.contains a.name
  let kept := E.heading.attributes.filter keep
  let names2 := kept.map Attribute.name
  { heading := { attributes := kept, primary_key := E.heading.primary_key }
    data := E.data.map (fun r => names2.map (fun n => getValue E.heading.names r n)) }

/-- Argument passed in `*attrs`: either the `dj.key` sentinel class or an
attribute name string. -/
inductive AttrArg where
  | key : AttrArg
  | name : String → AttrArg
deriving DecidableEq, Repr

/-- Translation of `is_key`: the sentinel class or the literal string "KEY". -/
def is_key : AttrArg → Bool
  | .key => true
  | .name s => s = "KEY"

/-- Underlying string of a non-key attribute argument. -/
def AttrArg.getName : AttrArg → String
  | .key => "KEY"
  | .name s => s

/-- Characters matched by the regex class `\s` on ASCII input. -/
def isPySpace (c : Char) : Bool :=
  c = ' ' || c = '\t' || c = '\n' || c = '\r' || c = '\x0b' || c = '\x0c'

def dropSpaces (cs : List Char) : List Char := cs.dropWhile isPySpace

/-- Consume an exact literal prefix, returning the remainder on success. -/
def afterLit : List Char → List Char → Option (List Char)
  | [], cs => some cs
  | _ :: _, [] => none
  | l :: ls, c :: cs => if c = l then afterLit ls cs else none

/-- Translation of the regex match `^\s*KEY\s*(ASC\s*)?$`. -/
def matchesKeyAsc (s : String) : Bool :=
  match afterLit ['K', 'E', 'Y'] (dropSpaces s.data) with
  | none => false
  | some rest =>
    let r := dropSpaces rest
    r.isEmpty ||
      (match afterLit ['A', 'S', 'C'] r with
       | some r2 => (dropSpaces r2).isEmpty
       | none => false)

/-- Translation of the regex match `^\s*KEY\s*DESC\s*$`. -/
def matchesKeyDesc (s : String) : Bool :=
  match afterLit ['K', 'E', 'Y'] (dropSpaces s.data) with
  | none => false
  | some rest =>
    match afterLit ['D', 'E', 'S', 'C'] (dropSpaces rest) with
    | some r2 => (dropSpaces r2).isEmpty
    | none => false

/-- Translation of `_flatten_attribute_list`: substitute key markers in an
ordering list by the primary-key names (reversed for the DESC form). -/
def flatten_attribute_list (primary_key : List String) (attr : List String) : List String :=
  attr.flatMap (fun a =>
    if matchesKeyAsc a then primary_key
    else if matchesKeyDesc a then primary_key.map (fun q => q ++ " DESC")
    else [a])

/-- An `order_by` argument: a single string or a sequence of strings. -/
inductive OrderArg where
  | str : String → OrderArg
  | list : List String → OrderArg
deriving DecidableEq, Repr

/-- Lines 70-75 of `Fetch.__call__`: wrap a single string into a list, then
expand the KEY markers. -/
def expandOrderBy (pk : List String) : Option OrderArg → Option (List String)
  | none => none
  | some (.str s) => some (flatten_attribute_list pk [s])
  | some (.list l) => some (flatten_attribute_list pk l)

/-- Errors: `DataJointError` raised by this layer (`dj`), or an error
propagated from a collaborator such as the query layer or numpy/pandas
column extraction (`collab`). -/
inductive DJError where
  | dj : String → DJError
  | collab : String → DJError
deriving DecidableEq, Repr

instance {ε α : Type} [DecidableEq ε] [DecidableEq α] : DecidableEq (Except ε α) :=
  fun x y =>
    match x, y with
    | .ok a, .ok b => decidable_of_iff (a = b) (by simp)
    | .error a, .error b => decidable_of_iff (a = b) (by simp)
    | .ok _, .error _ => isFalse (by simp)
    | .error _, .ok _ => isFalse (by simp)

def msgAttrsAsDict : String :=
  "Cannot specify attributes to return when as_dict=True. Use proj() to select attributes or set as_dict=False"

def msgFormatWith : String :=
  "Cannot specify output format when as_dict=True or when attributes are selected to be fetched separately."

def msgBadFormat (f : String) : String :=
  "Fetch output format must be in \x7b\x22array\x22, \x22frame\x22\x7d but \x22" ++ f ++ "\x22 was given"

def msgBadConfig (c : String) : String :=
  "Invalid entry \x22" ++ c ++ "\x22 in datajoint.config[\x22fetch_format\x22]: use \x22array\x22 or \x22frame\x22"

def offsetWarning : String :=
  "Offset set, but no limit. Setting limit to a large number. Consider setting a limit explicitly."

def msgFetch1Card : String :=
  "fetch1 should only be used for relations with exactly one tuple"

def msgFetch1Count (n : Nat) : String :=
  "fetch1 should only return one tuple. " ++ toString n ++ " tuples were found"

/-- Total comparison on values, used to model the deterministic ordering the
query layer applies for an ORDER BY clause. -/
def Value.cmp : Value → Value → Ordering
  | .raw a, .raw b => compare a b
  | .raw _, .unpacked _ _ => .lt
  | .raw _, .external _ _ => .lt
  | .unpacked _ _, .raw _ => .gt
  | .unpacked s1 v1, .unpacked s2 v2 => (compare s1 s2).then (Value.cmp v1 v2)
  | .unpacked _ _, .external _ _ => .lt
  | .external _ _, .raw _ => .gt
  | .external _ _, .unpacked _ _ => .gt
  | .external d1 v1, .external d2 v2 => (compare d1 d2).then (Value.cmp v1 v2)

def flipOrd : Ordering → Ordering
  | .lt => .gt
  | .gt => .lt
  | .eq => .eq

/-- Modelled from the spec: an ordering term handed to the query layer is an
attribute name optionally followed by a direction keyword (§4.2); parse into
the name and a descending flag. -/
def parseOrderTerm (s : String) : String × Bool :=
  if s.endsWith " DESC" then (s.dropRight 5, true)
  else if s.endsWith " ASC" then (s.dropRight 4, false)
  else (s, false)

/-- Lexicographic row comparison along a list of parsed ordering terms. -/
def rowCmp (names : List String) : List (String × Bool) → List Value → List Value → Ordering
  | [], _, _ => .eq
  | t :: ts, r1, r2 =>
    let c := Value.cmp (getValue names r1 t.1) (getValue names r2 t.1)
    (if t.2 then flipOrd c else c).then (rowCmp names ts r1 r2)

def rowLE (names : List String) (parsed : List (String × Bool)) (r1 r2 : List Value) : Bool :=
  rowCmp names parsed r1 r2 != Ordering.gt

/-- Insertion step of a comparator-driven sort. -/
def insertLE {α : Type} (le : α → α → Bool) (a : α) : List α → List α
  | [] => [a]
  | b :: l => if le a b then a :: b :: l else b :: insertLE le a l

/-- Deterministic comparator-driven sort (insertion sort). -/
def sortLE {α : Type} (le : α → α → Bool) : List α → List α
  | [] => []
  | a :: l => insertLE le a (sortLE le l)

/-- Permutation of row indices realizing the ORDER BY sort.  The query
layer's tie-breaking is unspecified, so any deterministic comparator-driven
sort is a faithful model of it. -/
def sortPerm (names : List String) (parsed : List (String × Bool))
    (data : List (List Value)) : List Nat :=
  sortLE (fun i j => rowLE names parsed (data.getD i []) (data.getD j []))
    (List.range data.length)

def limitTake (limit : Option Nat) (l : List (List Value)) : List (List Value) :=
  match limit with
  | none => l
  | some m => l.take m

/-- Modelled from the spec: `Expression.cursor(as_dict, limit, offset,
order_by)` (§3, §6) executes the query and returns the rows already ordered
by `order_by` and sliced by `offset`/`limit`; a term naming an unknown
attribute is a query-layer failure, propagated unchanged (§7).  Dict-shaped
and positional rows carry the same data, so a single positional row stream
is returned. -/
def Expression.cursorRows (E : Expression) (limit offset : Option Nat)
    (order_by : Option (List String)) : Except DJError (List (List Value)) :=
  match order_by with
  | none => .ok (limitTake limit (E.data.drop (offset.getD 0)))
  | some terms =>
    let parsed := terms.map parseOrderTerm
    if parsed.all (fun t => E.heading.names.contains t.1) then
      .ok (limitTake limit
        (((sortPerm E.heading.names parsed E.data).map (fun i => E.data.getD i [])).drop
          (offset.getD 0)))
    else .error (.collab "Unknown attribute in ORDER BY clause")

/-- Record array: the numpy structured array shape, columns in heading
order. -/
structure RecArray where
  names : List String
  rows : List (List Value)
deriving DecidableEq, Repr

/-- Modelled from the spec: the Frame shape is the record array indexed by
the primary key (§3); `pandas.DataFrame(ret).set_index(pk)` moves the
primary-key columns out of the data columns into the index. -/
structure Frame where
  index_names : List String
  data_names : List String
  index_rows : List (List Value)
  data_rows : List (List Value)
deriving DecidableEq, Repr

def mkFrame (pk names : List String) (rows : List (List Value)) : Frame :=
  let dnames := names.filter (fun n => ! pk.contains n)
  { index_names := pk
    data_names := dnames
    index_rows := rows.map (fun r => pk.map (fun n => getValue names r n))
    data_rows := rows.map (fun r => dnames.map (fun n => getValue names r n)) }

/-- Per-attribute column result in the positional ("tuple of columns")
shape. -/
inductive ColumnResult where
  | col : List Value → ColumnResult
  | keyDicts : List (List (String × Value)) → ColumnResult
deriving DecidableEq, Repr

/-- One of the output shapes a `fetch` call can produce (§3). -/
inductive FetchResult where
  | arr : RecArray → FetchResult
  | frame : Frame → FetchResult
  | dicts : List (List (String × Value)) → FetchResult
  | single : ColumnResult → FetchResult
  | columns : List ColumnResult → FetchResult
deriving DecidableEq, Repr

/-- Modelled from the spec: `result[name]` column extraction on the
intermediate container.  On a record array every heading column is
reachable; on a frame only the data columns are (the primary key sits in the
index), and an absent column is a collaborator lookup failure. -/
def FetchResult.getCol : FetchResult → String → Except DJError (List Value)
  | .arr a, n =>
    if a.names.contains n then .ok (a.rows.map (fun r => getValue a.names r n))
    else .error (.collab ("Unknown column " ++ n))
  | .frame f, n =>
    if f.data_names.contains n then .ok (f.data_rows.map (fun r => getValue f.data_names r n))
    else .error (.collab ("Unknown column " ++ n))
  | _, n => .error (.collab ("Unknown column " ++ n))

/-- Modelled from the spec: `to_dicts(result[pk])` builds one primary-key
dict per row from the multi-column selection `result[pk]`, in the requested
key order; as for `getCol`, index columns of a frame are not selectable. -/
def FetchResult.getKeyDicts : FetchResult → List String → Except DJError (List (List (String × Value)))
  | .arr a, pk =>
    if pk.all a.names.contains then
      .ok (a.rows.map (fun r => pk.map (fun n => (n, getValue a.names r n))))
    else .error (.collab "Unknown columns in selection")
  | .frame f, pk =>
    if pk.all f.data_names.contains then
      .ok (f.data_rows.map (fun r => pk.map (fun n => (n, getValue f.data_names r n))))
    else .error (.collab "Unknown columns in selection")
  | _, _ => .error (.collab "Unknown columns in selection")

/-- Row count `len(result)` of an intermediate fetch result. -/
def FetchResult.len : FetchResult → Nat
  | .arr a => a.rows.length
  | .frame f => f.data_rows.length
  | .dicts d => d.length
  | .single _ => 0
  | .columns _ => 0

/-- Decoding of one attribute value in the array path (lines 111-116):
external resolution first, else blob unpacking, else pass-through. -/
def decodeCellArray (a : Attribute) (squeeze : Bool) (v : Value) : Value :=
  if a.is_external then externalTableGet a.database v
  else if a.is_blob then unpack v squeeze else v

/-- Decoding of one attribute value in the as_dict path (lines 104-107):
blob unpacking only. -/
def decodeCellDict (a : Attribute) (squeeze : Bool) (v : Value) : Value :=
  if a.is_blob then unpack v squeeze else v

/-- Lines 90-93 of `Fetch.__call__`: when neither attributes nor `as_dict`
nor an explicit format is given, resolve the format from
`config["fetch_format"]`, rejecting unrecognized configured values. -/
def resolveFormat (cfg : String) (attrsEmpty as_dict : Bool) (format : Option String) :
    Except DJError (Option String) :=
  if attrsEmpty && !as_dict && format.isNone then
    if cfg = "array" ∨ cfg = "frame" then .ok (some cfg)
    else .error (.dj (msgBadConfig cfg))
  else .ok format

/-- Lines 100-118 of `Fetch.__call__`: the no-attribute branch.  The array
path decodes column-wise after building the structured array, which equals
the per-cell decoding written here. -/
def fetchAll (E : Expression) (limit offset : Option Nat) (order_by : Option (List String))
    (fmt : Option String) (as_dict squeeze : Bool) : Except DJError FetchResult :=
  match E.cursorRows limit offset order_by with
  | .error e => .error e
  | .ok rows =>
    if as_dict then
      .ok (.dicts (rows.map (fun r => E.heading.names.map (fun n =>
        (n, decodeCellDict (E.heading.attr n) squeeze (getValue E.heading.names r n))))))
    else
      let decoded := rows.map (fun r => E.heading.names.map (fun n =>
        decodeCellArray (E.heading.attr n) squeeze (getValue E.heading.names r n)))
      if fmt = some "frame" then
        .ok (.frame (mkFrame E.heading.primary_key E.heading.names decoded))
      else .ok (.arr { names := E.heading.names, rows := decoded })

/-- Lines 123-126 of `Fetch.__call__`: build the per-attribute results, a
primary-key dict list for key markers and an extracted column otherwise. -/
def collectColumns (pk : List String) (result : FetchResult) :
    List AttrArg → Except DJError (List ColumnResult)
  | [] => .ok []
  | a :: rest =>
    match (if is_key a then (result.getKeyDicts pk).map ColumnResult.keyDicts
           else (result.getCol (AttrArg.getName a)).map ColumnResult.col) with
    | .error e => .error e
    | .ok c =>
      match collectColumns pk result rest with
      | .error e => .error e
      | .ok cs => .ok (c :: cs)

/-- Translation of `Fetch.__call__` specialized to an empty `attrs` tuple,
which is exactly the instance the attribute branch of `Fetch.__call__`
re-enters recursively.  With `attrs` empty the check of line 78 is
vacuously skipped and the remaining checks of lines 83-93 take the forms
written here. -/
def fetchNoAttrs (cfg : String) (E : Expression) (offset limit : Option Nat)
    (order_by : Option OrderArg) (format : Option String) (as_dict squeeze : Bool) :
    Except DJError (List String × FetchResult) :=
  let order2 := expandOrderBy E.heading.primary_key order_by
  if format.isSome ∧ as_dict then .error (.dj msgFormatWith)
  else if ¬ (format = none ∨ format = some "array" ∨ format = some "frame") then
    .error (.dj (msgBadFormat (format.getD "")))
  else
    match resolveFormat cfg true as_dict format with
    | .error e => .error e
    | .ok fmt =>
      let needDefault : Bool := limit.isNone && offset.isSome
      let warns : List String := if needDefault then [offsetWarning] else []
      let limit2 : Option Nat := if needDefault then some (2 * E.data.length) else limit
      match fetchAll E limit2 offset order2 fmt as_dict squeeze with
      | .error e => .error e
      | .ok res => .ok (warns, res)

/-- Translation of `Fetch.__call__`.  The returned pair carries the warnings
emitted during the call alongside the produced shape.  With attributes
present, line 78 reduces to the `as_dict` test, line 83 to the
`format is not None` test, line 87 can no longer fire (`format` is `None`
there), and the configuration default of lines 90-93 is not consulted; the
recursive `fetch` of lines 121-122 runs with empty attributes, hence is
`fetchNoAttrs`. -/
def Fetch.call (cfg : String) (E : Expression) (attrs : List AttrArg)
    (offset limit : Option Nat) (order_by : Option OrderArg) (format : Option String)
    (as_dict squeeze : Bool) : Except DJError (List String × FetchResult) :=
  match attrs with
  | [] => fetchNoAttrs cfg E offset limit order_by format as_dict squeeze
  | a0 :: rest =>
    let order2 := expandOrderBy E.heading.primary_key order_by
    if as_dict then .error (.dj msgAttrsAsDict)
    else if format.isSome then .error (.dj msgFormatWith)
    else
      let needDefault : Bool := limit.isNone && offset.isSome
      let warns : List String := if needDefault then [offsetWarning] else []
      let limit2 : Option Nat := if needDefault then some (2 * E.data.length) else limit
      let attributes := ((a0 :: rest).filter (fun a => ! is_key a)).map AttrArg.getName
      match fetchNoAttrs cfg (E.proj attributes) offset limit2
          (order2.map OrderArg.list) none false squeeze with
      | .error e => .error e
      | .ok (w2, result) =>
        match collectColumns E.heading.primary_key result (a0 :: rest) with
        | .error e => .error e
        | .ok cols =>
          .ok (warns ++ w2,
            if (a0 :: rest).length = 1 then
              FetchResult.single (cols.getD 0 (ColumnResult.col []))
            else FetchResult.columns cols)

/-- Result of `Fetch1.__call__`: a full dict, a single value, or a tuple. -/
inductive Fetch1Cell where
  | val : Value → Fetch1Cell
  | keyDict : List (String × Value) → Fetch1Cell
deriving DecidableEq, Repr

inductive Fetch1Result where
  | dict : List (String × Value) → Fetch1Result
  | one : Fetch1Cell → Fetch1Result
  | tuple : List Fetch1Cell → Fetch1Result
deriving DecidableEq, Repr

/-- Lines 185-188 of `Fetch1.__call__`: per requested attribute, the first
primary-key dict for key markers, else the first entry of the extracted
column. -/
def collectCells (pk : List String) (result : FetchResult) :
    List AttrArg → Except DJError (List Fetch1Cell)
  | [] => .ok []
  | a :: rest =>
    match (if is_key a then
             (result.getKeyDicts pk).map (fun ds => Fetch1Cell.keyDict (ds.getD 0 []))
           else
             (result.getCol (AttrArg.getName a)).map (fun col =>
               Fetch1Cell.val (col.getD 0 (Value.raw "")))) with
    | .error e => .error e
    | .ok c =>
      match collectCells pk result rest with
      | .error e => .error e
      | .ok cs => .ok (c :: cs)

/-- Translation of `Fetch1.__call__`.  With no attributes the dict cursor is
read directly (a missing row, a falsy empty row dict, or a second row is a
cardinality error); otherwise the projected multi-row fetch is used. -/
def Fetch1.call (cfg : String) (E : Expression) (attrs : List AttrArg) (squeeze : Bool) :
    Except DJError Fetch1Result :=
  if attrs = [] then
    match E.data with
    | [] => .error (.dj msgFetch1Card)
    | r :: rest =>
      if E.heading.names = [] ∨ rest ≠ [] then .error (.dj msgFetch1Card)
      else
        .ok (.dict (E.heading.names.map (fun n =>
          let a := E.heading.attr n
          let v := getValue E.heading.names r n
          (n, if a.is_external then externalTableGet a.database v
              else if a.is_blob then unpack v squeeze else v))))
  else
    let attributes := (attrs.filter (fun x => ! is_key x)).map AttrArg.getName
    match Fetch.call cfg (E.proj attributes) [] none none none none false squeeze with
    | .error e => .error e
    | .ok (_, result) =>
      if result.len ≠ 1 then .error (.dj (msgFetch1Count result.len))
      else
        match collectCells E.heading.primary_key result attrs with
        | .error e => .error e
        | .ok cells =>
          .ok (if attrs.length = 1 then
                 Fetch1Result.one (cells.getD 0 (Fetch1Cell.val (Value.raw "")))
               else Fetch1Result.tuple cells)

/-- Primary-key names that can never be produced by nor collide with the KEY
marker patterns.  DataJoint attribute names are lowercase identifiers, so
real headings satisfy this. -/
def markerSafe (n : String) : Prop :=
  matchesKeyAsc n = false ∧ matchesKeyDesc n = false ∧
  matchesKeyAsc (n ++ " DESC") = false ∧ matchesKeyDesc (n ++ " DESC") = false

instance (n : String) : Decidable (markerSafe n) := by
  unfold markerSafe; infer_instance

/-- Wellformedness of an expression collaborator: a nonempty heading with
distinct names, a nonempty primary key drawn from the heading with
identifier-like names, and rows aligned with the heading. -/
def Expression.WF (E : Expression) : Prop :=
  E.heading.attributes ≠ [] ∧
  E.heading.names.Nodup ∧
  E.heading.primary_key ≠ [] ∧
  E.heading.primary_key.Nodup ∧
  (∀ n ∈ E.heading.primary_key, n ∈ E.heading.names) ∧
  (∀ n ∈ E.heading.primary_key, markerSafe n) ∧
  (∀ r ∈ E.data, r.length = E.heading.names.length)

instance (E : Expression) : Decidable E.WF := by
  unfold Expression.WF; infer_instance

/-! Helper lemmas shared by the claim theorems. -/

lemma getValue_cons (m n : String) (x : Value) (ms : List String) (xs : List Value) :
    getValue (m :: ms) (x :: xs) n = if m = n then x else getValue ms xs n := by
  by_cases hm : m = n
  · simp [getValue, colIdx, hm]
  · simp only [getValue, colIdx, hm, if_neg hm, if_false]
    cases hci : colIdx n ms with
    | none => simp
    | some i => simp

lemma getValue_nil (ns : List String) (n : String) : getValue ns [] n = Value.raw "" := by
  unfold getValue
  cases hci : colIdx n ns with
  | none => rfl
  | some i => simp

lemma getValue_map_self (ns : List String) (f : String → Value) :
    ∀ n ∈ ns, getValue ns (ns.map f) n = f n := by
  induction ns with
  | nil => intro n h; cases h
  | cons m ms ih =>
    intro n hn
    rw [List.map_cons, getValue_cons]
    by_cases hm : m = n
    · simp [hm]
    · have hn' : n ∈ ms := by
        rcases List.mem_cons.mp hn with h | h
        · exact absurd h.symm hm
        · exact h
      simp [hm, ih n hn']

lemma mem_insertLE {α : Type} (le : α → α → Bool) (a x : α) (l : List α) :
    x ∈ insertLE le a l ↔ x = a ∨ x ∈ l := by
  induction l with
  | nil => simp [insertLE]
  | cons b t ih =>
    unfold insertLE
    by_cases h : le a b = true
    · simp [h]
    · rw [if_neg h]
      simp only [List.mem_cons, ih]
      tauto

lemma mem_sortLE {α : Type} (le : α → α → Bool) (x : α) (l : List α) :
    x ∈ sortLE le l ↔ x ∈ l := by
  induction l with
  | nil => simp [sortLE]
  | cons a t ih => simp [sortLE, mem_insertLE, ih]

lemma getD_map_lt {α β : Type} (l : List α) (f : α → β) (i : Nat) (h : i < l.length)
    (d : β) (d2 : α) : (l.map f).getD i d = f (l.getD i d2) := by
  have h2 : i < (l.map f).length := by simpa using h
  rw [List.getD_eq_getElem?_getD, List.getD_eq_getElem?_getD,
    List.getElem?_eq_getElem h2, List.getElem?_eq_getElem h]
  simp

lemma find_filter_name (l : List Attribute) (p : Attribute → Bool) (n : String)
    (hp : ∀ a : Attribute, a.name = n → p a = true) :
    (l.filter p).find? (fun a => a.name = n) = l.find? (fun a => a.name = n) := by
  induction l with
  | nil => rfl
  | cons a t ih =>
    by_cases hk : p a = true
    · rw [List.filter_cons, if_pos hk]
      by_cases hn : a.name = n <;> simp [List.find?, hn, ih]
    · have hn : (a.name = n) = False := by
        simp only [eq_iff_iff, iff_false]
        intro h
        exact hk (hp a h)
      rw [List.filter_cons, if_neg hk]
      simp [List.find?, hn, ih]

lemma Heading.attr_mem {h : Heading} {n : String} (hn : n ∈ h.names) :
    h.attr n ∈ h.attributes := by
  unfold Heading.attr
  cases hf : h.attributes.find? (fun a => a.name = n) with
  | some a => simpa using List.mem_of_find?_eq_some hf
  | none =>
    exfalso
    obtain ⟨a, ha, hname⟩ := List.mem_map.mp hn
    have : (h.attributes.find? (fun a => a.name = n)).isSome = true :=
      List.find?_isSome.mpr ⟨a, ha, by simp [hname]⟩
    rw [hf] at this
    simp at this

/-- Mutual exclusion of the two KEY regexes: a DESC match is never an
ASC-or-bare match. -/
lemma keyDesc_not_keyAsc {a : String} (h : matchesKeyDesc a = true) :
    matchesKeyAsc a = false := by
  cases hk : afterLit ['K', 'E', 'Y'] (dropSpaces a.data) with
  | none => simp [matchesKeyDesc, hk] at h
  | some rest =>
    simp only [matchesKeyDesc, hk] at h
    simp only [matchesKeyAsc, hk]
    cases hu : dropSpaces rest with
    | nil => simp [hu, afterLit] at h
    | cons c cs =>
      simp only [hu] at h ⊢
      have hc : c = 'D' := by
        by_contra hne
        simp [afterLit, hne] at h
      have h2 : afterLit ['A', 'S', 'C'] (c :: cs) = none := by
        simp [afterLit, hc]
      simp [h2]

/-- Elements produced by the ordering expander never match a KEY pattern,
provided the primary-key names are marker-safe. -/
lemma flatten_markers_absent (pk attr : List String) (hpk : ∀ n ∈ pk, markerSafe n) :
    ∀ e ∈ flatten_attribute_list pk attr,
      matchesKeyAsc e = false ∧ matchesKeyDesc e = false := by
  intro e he
  unfold flatten_attribute_list at he
  rw [List.mem_flatMap] at he
  obtain ⟨a, _, hea⟩ := he
  by_cases h1 : matchesKeyAsc a = true
  · rw [if_pos h1] at hea
    exact ⟨(hpk e hea).1, (hpk e hea).2.1⟩
  · rw [if_neg h1] at hea
    by_cases h2 : matchesKeyDesc a = true
    · rw [if_pos h2] at hea
      obtain ⟨n, hn, hne⟩ := List.mem_map.mp hea
      subst hne
      exact ⟨(hpk n hn).2.2.1, (hpk n hn).2.2.2⟩
    · rw [if_neg h2] at hea
      rcases List.mem_singleton.mp hea with rfl
      exact ⟨Bool.not_eq_true _ ▸ h1, Bool.not_eq_true _ ▸ h2⟩

lemma flatten_fixed (pk : List String) :
    ∀ l, (∀ e ∈ l, matchesKeyAsc e = false ∧ matchesKeyDesc e = false) →
      flatten_attribute_list pk l = l := by
  intro l
  induction l with
  | nil => intro _; rfl
  | cons a t ih =>
    intro h
    have ha := h a (List.mem_cons_self a t)
    have ht := ih (fun e he => h e (List.mem_cons_of_mem a he))
    simp only [flatten_attribute_list, List.flatMap_cons, ha.1, ha.2,
      Bool.false_eq_true, if_false] at ht ⊢
    simp [ht]

lemma flatten_idem (pk l : List String) (hpk : ∀ n ∈ pk, markerSafe n) :
    flatten_attribute_list pk (flatten_attribute_list pk l) =
      flatten_attribute_list pk l :=
  flatten_fixed pk _ (flatten_markers_absent pk l hpk)

/-! Concrete expressions used by counterexamples and witnesses. -/

/-- Two-row expression with primary key `id` and a plain attribute `name`. -/
def exA : Expression :=
  { heading :=
      { attributes :=
          [{ name := "id", database := "", is_blob := false, is_external := false },
           { name := "name", database := "", is_blob := false, is_external := false }]
        primary_key := ["id"] }
    data := [[Value.raw "2", Value.raw "b"], [Value.raw "1", Value.raw "a"]] }

/-- One-row expression whose single attribute is externally stored; the
stored value is the content hash `h1`. -/
def exExternal : Expression :=
  { heading :=
      { attributes := [{ name := "x", database := "db", is_blob := false, is_external := true }]
        primary_key := ["x"] }
    data := [[Value.raw "h1"]] }

/-- Ten-row expression used for the offset-without-limit example. -/
def exTen : Expression :=
  { heading :=
      { attributes := [{ name := "x", database := "", is_blob := false, is_external := false }]
        primary_key := ["x"] }
    data := (List.range 10).map (fun i => [Value.raw (toString i)]) }

/-! Claim theorems. -/

/-- C5: the Ordering Expander treats a single string as a one-element
sequence; an element matching the KEY (optionally ASC) pattern is replaced
in place by the primary-key name list; an element matching KEY DESC is
replaced by that list with " DESC" appended to each name; all other
elements pass through; and on primary key ["id"], ["KEY DESC", "name"]
expands to ["id DESC", "name"] while the single string "KEY" expands to
["id"]. -/
theorem C5_ordering_expander (pk : List String) :
    (∀ s, expandOrderBy pk (some (OrderArg.str s)) = expandOrderBy pk (some (OrderArg.list [s]))) ∧
    (∀ a l1 l2, matchesKeyAsc a = true →
      flatten_attribute_list pk (l1 ++ a :: l2) =
        flatten_attribute_list pk l1 ++ pk ++ flatten_attribute_list pk l2) ∧
    (∀ a l1 l2, matchesKeyDesc a = true →
      flatten_attribute_list pk (l1 ++ a :: l2) =
        flatten_attribute_list pk l1 ++ pk.map (fun q => q ++ " DESC") ++
          flatten_attribute_list pk l2) ∧
    (∀ a l1 l2, matchesKeyAsc a = false → matchesKeyDesc a = false →
      flatten_attribute_list pk (l1 ++ a :: l2) =
        flatten_attribute_list pk l1 ++ a :: flatten_attribute_list pk l2) ∧
    flatten_attribute_list ["id"] ["KEY DESC", "name"] = ["id DESC", "name"] ∧
    expandOrderBy ["id"] (some (OrderArg.str "KEY")) = some ["id"] := by
  refine ⟨fun s => rfl, ?_, ?_, ?_, by decide, by decide⟩
  · intro a l1 l2 h
    have hd : matchesKeyDesc a = false := by
      by_contra hc
      rw [Bool.not_eq_false] at hc
      rw [keyDesc_not_keyAsc hc] at h
      exact absurd h (by simp)
    simp [flatten_attribute_list, List.flatMap_append, List.flatMap_cons, h, hd]
  · intro a l1 l2 h
    have ha : matchesKeyAsc a = false := keyDesc_not_keyAsc h
    simp [flatten_attribute_list, List.flatMap_append, List.flatMap_cons, h, ha]
  · intro a l1 l2 h1 h2
    simp [flatten_attribute_list, List.flatMap_append, List.flatMap_cons, h1, h2]

/-- Witness for C5 at concrete inputs: the in-place substitution of a KEY
element between two passthrough elements. -/
theorem C5_ordering_expander_witness :
    flatten_attribute_list ["p", "q"] (["a"] ++ "KEY" :: ["b"]) = ["a", "p", "q", "b"] := by
  rw [(C5_ordering_expander ["p", "q"]).2.1 "KEY" ["a"] ["b"] (by decide)]
  rfl

/-- C6 counterexample: for the primary-key name list ["KEY"], expanding
["KEY"] yields ["KEY"], whose element still matches the KEY pattern, so the
output is not free of key markers for every primary-key name list. -/
theorem C6_counterexample :
    ¬ (∀ e ∈ flatten_attribute_list ["KEY"] ["KEY"],
        matchesKeyAsc e = false ∧ matchesKeyDesc e = false) := by
  decide

/-- C6 (amended): provided no primary-key name (nor such a name with " DESC"
appended) itself matches a key-marker pattern, the expander output contains
no element matching the KEY, KEY ASC, or KEY DESC patterns. -/
theorem C6_no_markers (pk attr : List String) (hpk : ∀ n ∈ pk, markerSafe n) :
    ∀ e ∈ flatten_attribute_list pk attr,
      matchesKeyAsc e = false ∧ matchesKeyDesc e = false :=
  flatten_markers_absent pk attr hpk

/-- Witness for C6 (amended) at a concrete primary key and ordering list. -/
theorem C6_no_markers_witness :
    matchesKeyAsc "id DESC" = false ∧ matchesKeyDesc "id DESC" = false :=
  C6_no_markers ["id"] ["KEY DESC"] (by decide) "id DESC" (by decide)

/-- C3: each incompatible option combination raises a DataJointError, for
every expression alike (the error does not depend on the expression data, so
no query runs): attributes with as_dict; an explicit format with as_dict or
with attributes; an unrecognized format token; and an unrecognized
configured default format surfaced at call time. -/
theorem C3_validation_errors :
    (∀ cfg E a0 rest offset limit ob fmt sq,
      Fetch.call cfg E (a0 :: rest) offset limit ob fmt true sq =
        .error (.dj msgAttrsAsDict)) ∧
    (∀ cfg E offset limit ob f sq,
      Fetch.call cfg E [] offset limit ob (some f) true sq =
        .error (.dj msgFormatWith)) ∧
    (∀ cfg E a0 rest offset limit ob f sq,
      Fetch.call cfg E (a0 :: rest) offset limit ob (some f) false sq =
        .error (.dj msgFormatWith)) ∧
    (∀ cfg E offset limit ob f sq, f ≠ "array" → f ≠ "frame" →
      Fetch.call cfg E [] offset limit ob (some f) false sq =
        .error (.dj (msgBadFormat f))) ∧
    (∀ cfg E offset limit ob sq, cfg ≠ "array" → cfg ≠ "frame" →
      Fetch.call cfg E [] offset limit ob none false sq =
        .error (.dj (msgBadConfig cfg))) := by
  refine ⟨?_, ?_, ?_, ?_, ?_⟩
  · intro cfg E a0 rest offset limit ob fmt sq
    simp [Fetch.call]
  · intro cfg E offset limit ob f sq
    simp [Fetch.call, fetchNoAttrs]
  · intro cfg E a0 rest offset limit ob f sq
    simp [Fetch.call]
  · intro cfg E offset limit ob f sq h1 h2
    simp [Fetch.call, fetchNoAttrs, h1, h2]
  · intro cfg E offset limit ob sq h1 h2
    simp [Fetch.call, fetchNoAttrs, resolveFormat, h1, h2]

/-- Witness for C3 at concrete incompatible calls. -/
theorem C3_validation_errors_witness :
    Fetch.call "array" exA [AttrArg.name "name"] none none none none true false =
      .error (.dj msgAttrsAsDict) ∧
    Fetch.call "array" exA [] none none none (some "other") false false =
      .error (.dj (msgBadFormat "other")) ∧
    Fetch.call "bogus" exA [] none none none none false false =
      .error (.dj (msgBadConfig "bogus")) :=
  ⟨C3_validation_errors.1 "array" exA (AttrArg.name "name") [] none none none none false,
   C3_validation_errors.2.2.2.1 "array" exA none none none "other" false
     (by decide) (by decide),
   C3_validation_errors.2.2.2.2 "bogus" exA none none none false
     (by decide) (by decide)⟩

/-- C4: fetch1 raises a cardinality error in both modes: with no attributes
whenever the expression has zero rows or at least two rows, and with
attributes whenever the projected fetch returns a row count different from
one, reporting the actual count. -/
theorem C4_fetch1_cardinality :
    (∀ cfg E sq, (E.data = [] ∨ 2 ≤ E.data.length) →
      Fetch1.call cfg E [] sq = .error (.dj msgFetch1Card)) ∧
    (∀ cfg E a0 rest sq w result,
      Fetch.call cfg (E.proj (((a0 :: rest).filter (fun x => ! is_key x)).map AttrArg.getName))
          [] none none none none false sq = .ok (w, result) →
      result.len ≠ 1 →
      Fetch1.call cfg E (a0 :: rest) sq = .error (.dj (msgFetch1Count result.len))) := by
  constructor
  · intro cfg E sq h
    rcases h with h | h
    · simp [Fetch1.call, h]
    · cases hd : E.data with
      | nil => rw [hd] at h; simp at h
      | cons r t =>
        cases t with
        | nil => rw [hd] at h; simp at h
        | cons r2 t2 => simp [Fetch1.call, hd]
  · intro cfg E a0 rest sq w result hcall hlen
    simp [Fetch1.call, hcall, hlen]

/-- Witness for C4: an empty expression and a two-row projected fetch. -/
theorem C4_fetch1_cardinality_witness :
    Fetch1.call "array" { heading := exA.heading, data := [] } [] false =
      .error (.dj msgFetch1Card) ∧
    Fetch1.call "array" exA [AttrArg.name "name"] false =
      .error (.dj (msgFetch1Count 2)) :=
  ⟨C4_fetch1_cardinality.1 "array" { heading := exA.heading, data := [] } false
     (Or.inl rfl),
   C4_fetch1_cardinality.2 "array" exA (AttrArg.name "name") [] false []
     (FetchResult.arr
       { names := ["id", "name"]
         rows := [[Value.raw "2", Value.raw "b"], [Value.raw "1", Value.raw "a"]] })
     (by decide) (by decide)⟩

/-- C1 counterexample: on a one-row expression whose single attribute is
external, the DictList shape of fetch(as_dict=True) keeps the stored content
hash while the array shape replaces it by the external-store lookup, so the
per-attribute mapping is not applied in the DictList shape exactly as in the
array shape. -/
theorem C1_counterexample :
    Fetch.call "array" exExternal [] none none none none true false =
      .ok ([], .dicts [[("x", Value.raw "h1")]]) ∧
    Fetch.call "array" exExternal [] none none none none false false =
      .ok ([], .arr { names := ["x"], rows := [[Value.external "db" (Value.raw "h1")]] }) ∧
    Value.raw "h1" ≠ Value.external "db" (Value.raw "h1") := by
  decide

/-- C1 (amended): per attribute, the array shape substitutes
external_table.get from the schema named by the descriptor database for
is_external attributes, unpacks is_blob attributes and passes the rest
through; the DictList shape of fetch(as_dict=True) only unpacks is_blob
attributes and passes everything else through, including stored external
hashes. -/
theorem C1_row_decoder (cfg : String) (E : Expression) (sq : Bool) :
    Fetch.call cfg E [] none none none none true sq =
      .ok ([], .dicts (E.data.map (fun r => E.heading.names.map (fun n =>
        (n, if (E.heading.attr n).is_blob then unpack (getValue E.heading.names r n) sq
            else getValue E.heading.names r n))))) ∧
    Fetch.call "array" E [] none none none none false sq =
      .ok ([], .arr
        { names := E.heading.names,
          rows := E.data.map (fun r => E.heading.names.map (fun n =>
            if (E.heading.attr n).is_external then
              externalTableGet (E.heading.attr n).database (getValue E.heading.names r n)
            else if (E.heading.attr n).is_blob then unpack (getValue E.heading.names r n) sq
            else getValue E.heading.names r n)) }) := by
  constructor
  · simp [Fetch.call, fetchNoAttrs, resolveFormat, fetchAll, Expression.cursorRows,
      expandOrderBy, limitTake, decodeCellDict]
  · simp [Fetch.call, fetchNoAttrs, resolveFormat, fetchAll, Expression.cursorRows,
      expandOrderBy, limitTake, decodeCellArray]

/-- C2 counterexample: on a one-row expression with an external attribute,
fetch1() resolves the external value while the sole element of
fetch(as_dict=True) keeps the stored hash, so the two differ. -/
theorem C2_counterexample :
    Fetch1.call "array" exExternal [] false =
      .ok (.dict [("x", Value.external "db" (Value.raw "h1"))]) ∧
    Fetch.call "array" exExternal [] none none none none true false =
      .ok ([], .dicts [[("x", Value.raw "h1")]]) ∧
    ([("x", Value.external "db" (Value.raw "h1"))] : List (String × Value)) ≠
      [("x", Value.raw "h1")] := by
  decide

/-- C2 (amended): for every expression with a nonempty heading, exactly one
row and no external attribute, fetch1() with no attributes returns exactly
the sole element of the list returned by fetch(as_dict=True). -/
theorem C2_fetch1_matches_dict_fetch (cfg : String) (E : Expression) (sq : Bool)
    (hne : E.heading.attributes ≠ [])
    (hext : ∀ a ∈ E.heading.attributes, a.is_external = false)
    (hcard : E.data.length = 1) :
    ∃ d, Fetch1.call cfg E [] sq = .ok (.dict d) ∧
      Fetch.call cfg E [] none none none none true sq = .ok ([], .dicts [d]) := by
  obtain ⟨r, hr⟩ := List.length_eq_one.mp hcard
  have hnames : ¬ E.heading.names = [] := by
    simp only [Heading.names, List.map_eq_nil_iff]
    exact hne
  have hmap : E.heading.names.map (fun n =>
      let a := E.heading.attr n
      let v := getValue E.heading.names r n
      (n, if a.is_external then externalTableGet a.database v
          else if a.is_blob then unpack v sq else v)) =
    E.heading.names.map (fun n =>
      (n, decodeCellDict (E.heading.attr n) sq (getValue E.heading.names r n))) := by
    refine List.map_congr_left (fun n hn => ?_)
    have hx := hext _ (Heading.attr_mem hn)
    simp [decodeCellDict, hx]
  refine ⟨E.heading.names.map (fun n =>
      (n, decodeCellDict (E.heading.attr n) sq (getValue E.heading.names r n))), ?_, ?_⟩
  · rw [show Fetch1.call cfg E [] sq =
        .ok (.dict (E.heading.names.map (fun n =>
          let a := E.heading.attr n
          let v := getValue E.heading.names r n
          (n, if a.is_external then externalTableGet a.database v
              else if a.is_blob then unpack v sq else v)))) by
      simp [Fetch1.call, hr, hnames]]
    rw [hmap]
  · simp [Fetch.call, fetchNoAttrs, resolveFormat, fetchAll, Expression.cursorRows,
      expandOrderBy, limitTake, hr]

/-- Witness for C2 (amended) at a one-row expression without external
attributes. -/
theorem C2_fetch1_matches_dict_fetch_witness :
    ∃ d, Fetch1.call "array" { heading := exA.heading, data := [[Value.raw "1", Value.raw "a"]] } [] false
        = .ok (.dict d) ∧
      Fetch.call "array" { heading := exA.heading, data := [[Value.raw "1", Value.raw "a"]] }
          [] none none none none true false = .ok ([], .dicts [d]) :=
  C2_fetch1_matches_dict_fetch "array"
    { heading := exA.heading, data := [[Value.raw "1", Value.raw "a"]] } false
    (by decide) (by decide) (by decide)


/-- Successful array-format fetchAll always produces the record-array
shape. -/
lemma fetchAll_shape_array (E : Expression) (lim off : Option Nat)
    (ord : Option (List String)) (sq : Bool) (res : FetchResult)
    (h : fetchAll E lim off ord (some "array") false sq = .ok res) :
    ∃ a, res = FetchResult.arr a := by
  unfold fetchAll at h
  cases hcur : E.cursorRows lim off ord with
  | error e => rw [hcur] at h; simp at h
  | ok rows =>
    rw [hcur] at h
    simp only [Bool.false_eq_true, if_false] at h
    rw [if_neg (by simp)] at h
    exact ⟨_, (Except.ok.inj h).symm⟩

/-- Successful frame-format fetchAll always produces the frame shape. -/
lemma fetchAll_shape_frame (E : Expression) (lim off : Option Nat)
    (ord : Option (List String)) (sq : Bool) (res : FetchResult)
    (h : fetchAll E lim off ord (some "frame") false sq = .ok res) :
    ∃ f, res = FetchResult.frame f := by
  unfold fetchAll at h
  cases hcur : E.cursorRows lim off ord with
  | error e => rw [hcur] at h; simp at h
  | ok rows =>
    rw [hcur] at h
    simp only [Bool.false_eq_true, if_false, if_true] at h
    exact ⟨_, (Except.ok.inj h).symm⟩

/-- Decomposition of a no-attribute fetch with `as_dict=False` and no
explicit format: the configured default must be one of the two tokens, and
the produced shape follows it. -/
lemma fetchNoAttrs_success_shape (cfg : String) (E : Expression)
    (offset limit : Option Nat) (ob : Option OrderArg) (sq : Bool)
    (w : List String) (result : FetchResult)
    (h : fetchNoAttrs cfg E offset limit ob none false sq = .ok (w, result)) :
    (cfg = "array" → ∃ a, result = FetchResult.arr a) ∧
    (cfg = "frame" → ∃ f, result = FetchResult.frame f) := by
  unfold fetchNoAttrs resolveFormat at h
  rw [if_neg (by simp)] at h
  rw [if_neg (not_not_intro (Or.inl rfl))] at h
  rw [if_pos (by simp)] at h
  by_cases hcfg : cfg = "array" ∨ cfg = "frame"
  · rw [if_pos hcfg] at h
    have h2 : (match fetchAll E
          (if (limit.isNone && offset.isSome) = true then some (2 * E.data.length) else limit)
          offset (expandOrderBy E.heading.primary_key ob) (some cfg) false sq with
        | Except.error e => Except.error e
        | Except.ok res =>
          Except.ok
            ((if (limit.isNone && offset.isSome) = true then [offsetWarning]
              else ([] : List String)), res)) = Except.ok (w, result) := h
    cases hfa : fetchAll E
        (if (limit.isNone && offset.isSome) = true then some (2 * E.data.length) else limit)
        offset (expandOrderBy E.heading.primary_key ob) (some cfg) false sq with
    | error e => rw [hfa] at h2; simp at h2
    | ok res =>
      rw [hfa] at h2
      simp only [Except.ok.injEq, Prod.mk.injEq] at h2
      obtain ⟨-, hres⟩ := h2
      subst hres
      constructor <;> rintro rfl
      · exact fetchAll_shape_array _ _ _ _ _ _ hfa
      · exact fetchAll_shape_frame _ _ _ _ _ _ hfa
  · rw [if_neg hcfg] at h
    simp at h

/-- C10: with at least one positional attribute (and hence no explicit
format), the call reduces to a recursive fetch on the projection of the
non-key attributes invoked with as_dict=False and format=None, so that call
resolves its format from the configured default: on success its intermediate
container is a record array exactly when the configured default is "array"
and a primary-key-indexed frame when it is "frame". -/
theorem C10_recursive_format (cfg : String) (E : Expression) (a0 : AttrArg)
    (rest : List AttrArg) (offset limit : Option Nat) (ob : Option OrderArg) (sq : Bool) :
    Fetch.call cfg E (a0 :: rest) offset limit ob none false sq =
      (match Fetch.call cfg
          (E.proj (((a0 :: rest).filter (fun a => ! is_key a)).map AttrArg.getName)) []
          offset (if limit.isNone && offset.isSome then some (2 * E.data.length) else limit)
          ((expandOrderBy E.heading.primary_key ob).map OrderArg.list) none false sq with
       | .error e => .error e
       | .ok (w2, result) =>
         match collectColumns E.heading.primary_key result (a0 :: rest) with
         | .error e => .error e
         | .ok cols =>
           .ok ((if limit.isNone && offset.isSome then [offsetWarning] else []) ++ w2,
             if (a0 :: rest).length = 1 then
               FetchResult.single (cols.getD 0 (ColumnResult.col []))
             else FetchResult.columns cols)) ∧
    (∀ w result,
      Fetch.call cfg
          (E.proj (((a0 :: rest).filter (fun a => ! is_key a)).map AttrArg.getName)) []
          offset (if limit.isNone && offset.isSome then some (2 * E.data.length) else limit)
          ((expandOrderBy E.heading.primary_key ob).map OrderArg.list) none false sq
        = .ok (w, result) →
      (cfg = "array" → ∃ a, result = FetchResult.arr a) ∧
      (cfg = "frame" → ∃ f, result = FetchResult.frame f)) := by
  constructor
  · rfl
  · intro w result h
    exact fetchNoAttrs_success_shape cfg _ offset _ _ sq w result h

/-- Witness for C10: the intermediate result of fetch of one attribute on a
two-row expression under the array default is a record array. -/
theorem C10_recursive_format_witness :
    ∃ a, FetchResult.arr
        { names := ["id", "name"],
          rows := [[Value.raw "2", Value.raw "b"], [Value.raw "1", Value.raw "a"]] } =
      FetchResult.arr a :=
  ((C10_recursive_format "array" exA (AttrArg.name "name") [] none none none false).2 []
    (FetchResult.arr
      { names := ["id", "name"],
        rows := [[Value.raw "2", Value.raw "b"], [Value.raw "1", Value.raw "a"]] })
    (by decide)).1 rfl

/-- Offset-without-limit defaulting at the no-attribute level: the call with
limit unset equals the call with limit preset to twice the row count, plus
the emitted warning. -/
lemma fetchNoAttrs_limit_default (cfg : String) (E : Expression) (offv : Nat)
    (ob : Option OrderArg) (fmt : Option String) (ad sq : Bool) :
    fetchNoAttrs cfg E (some offv) none ob fmt ad sq =
      (fetchNoAttrs cfg E (some offv) (some (2 * E.data.length)) ob fmt ad sq).map
        (fun p : List String × FetchResult => (offsetWarning :: p.1, p.2)) := by
  unfold fetchNoAttrs
  by_cases h1 : fmt.isSome ∧ ad = true
  · rw [if_pos h1, if_pos h1]; rfl
  · rw [if_neg h1, if_neg h1]
    by_cases h2 : ¬ (fmt = none ∨ fmt = some "array" ∨ fmt = some "frame")
    · rw [if_pos h2, if_pos h2]; rfl
    · rw [if_neg h2, if_neg h2]
      cases hr : resolveFormat cfg true ad fmt with
      | error e => rfl
      | ok f2 =>
        show (match fetchAll E (some (2 * E.data.length)) (some offv)
            (expandOrderBy E.heading.primary_key ob) f2 ad sq with
          | Except.error e => Except.error e
          | Except.ok res => Except.ok ([offsetWarning], res)) =
          (match fetchAll E (some (2 * E.data.length)) (some offv)
              (expandOrderBy E.heading.primary_key ob) f2 ad sq with
            | Except.error e => Except.error e
            | Except.ok res => Except.ok (([] : List String), res)).map
            (fun p : List String × FetchResult => (offsetWarning :: p.1, p.2))
        cases fetchAll E (some (2 * E.data.length)) (some offv)
            (expandOrderBy E.heading.primary_key ob) f2 ad sq <;> rfl

/-- C7: calling fetch with offset set and limit unset never fails on that
account: the result is exactly the result of the same call with limit preset
to twice the expression row count, with the offset warning prepended; in
particular fetch(offset=5) on a ten-row expression returns rows 5 to 9 with
a warning, matching an effective limit of 20. -/
theorem C7_offset_without_limit :
    (∀ cfg E attrs offv ob fmt ad sq,
      Fetch.call cfg E attrs (some offv) none ob fmt ad sq =
        (Fetch.call cfg E attrs (some offv) (some (2 * E.data.length)) ob fmt ad sq).map
          (fun p : List String × FetchResult => (offsetWarning :: p.1, p.2))) ∧
    Fetch.call "array" exTen [] (some 5) none none none false false =
      .ok ([offsetWarning], .arr
        { names := ["x"],
          rows := [[Value.raw "5"], [Value.raw "6"], [Value.raw "7"], [Value.raw "8"],
                   [Value.raw "9"]] }) ∧
    Fetch.call "array" exTen [] (some 5) none none none false false =
      (Fetch.call "array" exTen [] (some 5) (some 20) none none false false).map
        (fun p : List String × FetchResult => (offsetWarning :: p.1, p.2)) := by
  refine ⟨?_, by decide, by decide⟩
  intro cfg E attrs offv ob fmt ad sq
  cases attrs with
  | nil => exact fetchNoAttrs_limit_default cfg E offv ob fmt ad sq
  | cons a0 rest =>
    simp only [Fetch.call]
    by_cases h1 : ad = true
    · rw [if_pos h1, if_pos h1]; rfl
    · rw [if_neg h1, if_neg h1]
      by_cases h2 : fmt.isSome = true
      · rw [if_pos h2, if_pos h2]; rfl
      · rw [if_neg h2, if_neg h2]
        show (match fetchNoAttrs cfg
            (E.proj (((a0 :: rest).filter (fun a => ! is_key a)).map AttrArg.getName))
            (some offv) (some (2 * E.data.length))
            ((expandOrderBy E.heading.primary_key ob).map OrderArg.list) none false sq with
          | Except.error e => Except.error e
          | Except.ok (w2, result) =>
            match collectColumns E.heading.primary_key result (a0 :: rest) with
            | Except.error e => Except.error e
            | Except.ok cols =>
              Except.ok ([offsetWarning] ++ w2,
                if (a0 :: rest).length = 1 then
                  FetchResult.single (cols.getD 0 (ColumnResult.col []))
                else FetchResult.columns cols)) =
          (match fetchNoAttrs cfg
              (E.proj (((a0 :: rest).filter (fun a => ! is_key a)).map AttrArg.getName))
              (some offv) (some (2 * E.data.length))
              ((expandOrderBy E.heading.primary_key ob).map OrderArg.list) none false sq with
            | Except.error e => Except.error e
            | Except.ok (w2, result) =>
              match collectColumns E.heading.primary_key result (a0 :: rest) with
              | Except.error e => Except.error e
              | Except.ok cols =>
                Except.ok (([] : List String) ++ w2,
                  if (a0 :: rest).length = 1 then
                    FetchResult.single (cols.getD 0 (ColumnResult.col []))
                  else FetchResult.columns cols)).map
            (fun p : List String × FetchResult => (offsetWarning :: p.1, p.2))
        cases hin : fetchNoAttrs cfg
            (E.proj (((a0 :: rest).filter (fun a => ! is_key a)).map AttrArg.getName))
            (some offv) (some (2 * E.data.length))
            ((expandOrderBy E.heading.primary_key ob).map OrderArg.list) none false sq with
        | error e => rfl
        | ok p =>
          obtain ⟨w2, result⟩ := p
          show (match collectColumns E.heading.primary_key result (a0 :: rest) with
            | Except.error e => Except.error e
            | Except.ok cols =>
              Except.ok ([offsetWarning] ++ w2,
                if (a0 :: rest).length = 1 then
                  FetchResult.single (cols.getD 0 (ColumnResult.col []))
                else FetchResult.columns cols)) =
            (match collectColumns E.heading.primary_key result (a0 :: rest) with
              | Except.error e => Except.error e
              | Except.ok cols =>
                Except.ok (([] : List String) ++ w2,
                  if (a0 :: rest).length = 1 then
                    FetchResult.single (cols.getD 0 (ColumnResult.col []))
                  else FetchResult.columns cols)).map
              (fun p : List String × FetchResult => (offsetWarning :: p.1, p.2))
          cases collectColumns E.heading.primary_key result (a0 :: rest) <;> rfl

/-! Projection and cursor correspondence lemmas. -/

lemma proj_primary_key (E : Expression) (asked : List String) :
    (E.proj asked).heading.primary_key = E.heading.primary_key := rfl

lemma proj_data (E : Expression) (asked : List String) :
    (E.proj asked).data = E.data.map (fun r =>
      (E.proj asked).heading.names.map (fun n => getValue E.heading.names r n)) := rfl

lemma proj_names (E : Expression) (asked : List String) :
    (E.proj asked).heading.names = E.heading.names.filter (fun n =>
      E.heading.primary_key.contains n || asked.contains n) := by
  show (E.heading.attributes.filter (fun a =>
      E.heading.primary_key.contains a.name || asked.contains a.name)).map Attribute.name =
    (E.heading.attributes.map Attribute.name).filter (fun n =>
      E.heading.primary_key.contains n || asked.contains n)
  rw [List.filter_map]
  rfl

lemma mem_proj_names (E : Expression) (asked : List String) (n : String) :
    n ∈ (E.proj asked).heading.names ↔
      n ∈ E.heading.names ∧
        (E.heading.primary_key.contains n || asked.contains n) = true := by
  rw [proj_names, List.mem_filter]

lemma proj_attr_eq (E : Expression) (asked : List String) (n : String)
    (hK : (E.heading.primary_key.contains n || asked.contains n) = true) :
    (E.proj asked).heading.attr n = E.heading.attr n := by
  show ((E.heading.attributes.filter (fun a =>
      E.heading.primary_key.contains a.name || asked.contains a.name)).find?
        (fun a => a.name = n)).getD (defaultAttr n) =
    (E.heading.attributes.find? (fun a => a.name = n)).getD (defaultAttr n)
  rw [find_filter_name E.heading.attributes _ n (fun a ha => by rw [ha]; exact hK)]

lemma rowCmp_congr (ns1 ns2 : List String) (parsed : List (String × Bool))
    (s1 s2 r1 r2 : List Value)
    (h1 : ∀ t ∈ parsed, getValue ns1 s1 t.1 = getValue ns2 r1 t.1)
    (h2 : ∀ t ∈ parsed, getValue ns1 s2 t.1 = getValue ns2 r2 t.1) :
    rowCmp ns1 parsed s1 s2 = rowCmp ns2 parsed r1 r2 := by
  induction parsed with
  | nil => rfl
  | cons t ts ih =>
    simp only [rowCmp, h1 t (List.mem_cons_self t ts), h2 t (List.mem_cons_self t ts)]
    rw [ih (fun u hu => h1 u (List.mem_cons_of_mem t hu))
      (fun u hu => h2 u (List.mem_cons_of_mem t hu))]

lemma getD_proj_cell (E : Expression) (asked : List String) (i : Nat) (n : String)
    (hn : n ∈ (E.proj asked).heading.names) :
    getValue (E.proj asked).heading.names ((E.proj asked).data.getD i []) n =
      getValue E.heading.names (E.data.getD i []) n := by
  by_cases hi : i < E.data.length
  · have hrow : (E.proj asked).data.getD i [] =
        (E.proj asked).heading.names.map (fun m =>
          getValue E.heading.names (E.data.getD i []) m) := by
      rw [proj_data]
      exact getD_map_lt E.data _ i hi [] []
    rw [hrow, getValue_map_self _ _ n hn]
  · have hlen : E.data.length ≤ i := Nat.le_of_not_lt hi
    have hlen2 : (E.proj asked).data.length ≤ i := by
      rw [proj_data, List.length_map]
      exact hlen
    rw [List.getD_eq_default _ _ hlen, List.getD_eq_default _ _ hlen2,
      getValue_nil, getValue_nil]

lemma sortPerm_proj (E : Expression) (asked : List String) (parsed : List (String × Bool))
    (hterms : ∀ t ∈ parsed, t.1 ∈ (E.proj asked).heading.names) :
    sortPerm (E.proj asked).heading.names parsed (E.proj asked).data =
      sortPerm E.heading.names parsed E.data := by
  unfold sortPerm
  have hlen : (E.proj asked).data.length = E.data.length := by
    rw [proj_data, List.length_map]
  rw [hlen]
  congr 1
  funext i j
  unfold rowLE
  rw [rowCmp_congr (E.proj asked).heading.names E.heading.names parsed _ _ _ _
    (fun t ht => getD_proj_cell E asked i t.1 (hterms t ht))
    (fun t ht => getD_proj_cell E asked j t.1 (hterms t ht))]

lemma limitTake_map (lim : Option Nat) (f : List Value → List Value)
    (l : List (List Value)) : limitTake lim (l.map f) = (limitTake lim l).map f := by
  cases lim with
  | none => rfl
  | some m => simp [limitTake, List.map_take]

/-- On success of the projected cursor, the full cursor succeeds with the
same arguments and the projected rows are exactly the per-row restrictions
of the full rows, in the same order. -/
lemma cursorRows_proj (E : Expression) (asked : List String) (limit2 offset : Option Nat)
    (order2 : Option (List String)) (rows2 : List (List Value))
    (h : (E.proj asked).cursorRows limit2 offset order2 = .ok rows2) :
    ∃ rows, E.cursorRows limit2 offset order2 = .ok rows ∧
      rows2 = rows.map (fun r =>
        (E.proj asked).heading.names.map (fun n => getValue E.heading.names r n)) := by
  cases order2 with
  | none =>
    unfold Expression.cursorRows at h
    refine ⟨limitTake limit2 (E.data.drop (offset.getD 0)), rfl, ?_⟩
    rw [← Except.ok.inj h, proj_data, ← List.map_drop, limitTake_map]
  | some terms =>
    replace h : (if ((terms.map parseOrderTerm).all
          (fun t => (E.proj asked).heading.names.contains t.1)) = true then
        Except.ok (limitTake limit2 (List.drop (offset.getD 0)
          (List.map (fun i => (E.proj asked).data.getD i [])
            (sortPerm (E.proj asked).heading.names (terms.map parseOrderTerm)
              (E.proj asked).data))))
      else (Except.error (DJError.collab "Unknown attribute in ORDER BY clause") :
        Except DJError (List (List Value)))) = Except.ok rows2 := h
    by_cases hv : (terms.map parseOrderTerm).all
        (fun t => (E.proj asked).heading.names.contains t.1) = true
    case neg => rw [if_neg hv] at h; exact absurd h (by simp)
    case pos =>
      rw [if_pos hv] at h
      have hterms : ∀ t ∈ terms.map parseOrderTerm, t.1 ∈ (E.proj asked).heading.names := by
        intro t ht
        exact List.elem_iff.mp (List.all_eq_true.mp hv t ht)
      have hvfull : (terms.map parseOrderTerm).all
          (fun t => E.heading.names.contains t.1) = true := by
        rw [List.all_eq_true]
        intro t ht
        exact List.elem_iff.mpr ((mem_proj_names E asked t.1).mp (hterms t ht)).1
      refine ⟨limitTake limit2 (List.drop (offset.getD 0)
        (List.map (fun i => E.data.getD i [])
          (sortPerm E.heading.names (terms.map parseOrderTerm) E.data))), ?_, ?_⟩
      · show (if ((terms.map parseOrderTerm).all
            (fun t => E.heading.names.contains t.1)) = true then
            Except.ok (limitTake limit2 (List.drop (offset.getD 0)
              (List.map (fun i => E.data.getD i [])
                (sortPerm E.heading.names (terms.map parseOrderTerm) E.data))))
          else (Except.error (DJError.collab "Unknown attribute in ORDER BY clause") :
            Except DJError (List (List Value)))) =
          Except.ok (limitTake limit2 (List.drop (offset.getD 0)
            (List.map (fun i => E.data.getD i [])
              (sortPerm E.heading.names (terms.map parseOrderTerm) E.data))))
        rw [if_pos hvfull]
      rw [← Except.ok.inj h]
      rw [show sortPerm (E.proj asked).heading.names (terms.map parseOrderTerm)
          (E.proj asked).data =
        sortPerm E.heading.names (terms.map parseOrderTerm) E.data from
        sortPerm_proj E asked (terms.map parseOrderTerm) hterms]
      have hmap : (sortPerm E.heading.names (terms.map parseOrderTerm) E.data).map
          (fun i => (E.proj asked).data.getD i []) =
        ((sortPerm E.heading.names (terms.map parseOrderTerm) E.data).map
          (fun i => E.data.getD i [])).map (fun r =>
            (E.proj asked).heading.names.map (fun n => getValue E.heading.names r n)) := by
        rw [List.map_map]
        refine List.map_congr_left (fun i hi => ?_)
        have hilt : i < E.data.length := by
          have hmem := (mem_sortLE _ i _).mp hi
          simpa using List.mem_range.mp hmem
        rw [proj_data]
        exact getD_map_lt E.data _ i hilt [] []
      rw [hmap, ← List.map_drop, limitTake_map]

lemma decode_proj_cell (E : Expression) (asked : List String) (sq : Bool) (r : List Value)
    (n : String) (hn : n ∈ (E.proj asked).heading.names) :
    decodeCellArray ((E.proj asked).heading.attr n) sq
      (getValue (E.proj asked).heading.names
        ((E.proj asked).heading.names.map (fun m => getValue E.heading.names r m)) n) =
    decodeCellArray (E.heading.attr n) sq (getValue E.heading.names r n) := by
  rw [getValue_map_self _ _ n hn, proj_attr_eq E asked n ((mem_proj_names E asked n).mp hn).2]

lemma decoded_row_proj (E : Expression) (asked : List String) (sq : Bool) (r : List Value) :
    (E.proj asked).heading.names.map (fun n =>
      decodeCellArray ((E.proj asked).heading.attr n) sq
        (getValue (E.proj asked).heading.names
          ((E.proj asked).heading.names.map (fun m => getValue E.heading.names r m)) n)) =
    (E.proj asked).heading.names.map (fun n =>
      getValue E.heading.names
        (E.heading.names.map (fun m =>
          decodeCellArray (E.heading.attr m) sq (getValue E.heading.names r m))) n) := by
  refine List.map_congr_left (fun n hn => ?_)
  rw [decode_proj_cell E asked sq r n hn,
    getValue_map_self _ _ n ((mem_proj_names E asked n).mp hn).1]

/-- On success of an array-format fetchAll on a projection, the full
fetchAll succeeds and the projected decoded rows are the per-row
restrictions of the full decoded rows, in the same order. -/
lemma fetchAll_proj_arr (E : Expression) (asked : List String) (limit2 offset : Option Nat)
    (order2 : Option (List String)) (sq : Bool) (result : FetchResult)
    (h : fetchAll (E.proj asked) limit2 offset order2 (some "array") false sq = .ok result) :
    ∃ R, fetchAll E limit2 offset order2 (some "array") false sq =
        .ok (.arr { names := E.heading.names, rows := R }) ∧
      result = .arr
        { names := (E.proj asked).heading.names,
          rows := R.map (fun r =>
            (E.proj asked).heading.names.map (fun n => getValue E.heading.names r n)) } := by
  unfold fetchAll at h
  cases hcur : (E.proj asked).cursorRows limit2 offset order2 with
  | error e => rw [hcur] at h; exact absurd h (by simp)
  | ok rows2 =>
    rw [hcur] at h
    replace h : (Except.ok (FetchResult.arr
        { names := (E.proj asked).heading.names,
          rows := rows2.map (fun r => (E.proj asked).heading.names.map (fun n =>
            decodeCellArray ((E.proj asked).heading.attr n) sq
              (getValue (E.proj asked).heading.names r n))) }) :
        Except DJError FetchResult) = .ok result := h
    obtain ⟨rows, hfull, hrows2⟩ := cursorRows_proj E asked limit2 offset order2 rows2 hcur
    refine ⟨rows.map (fun r => E.heading.names.map (fun m =>
      decodeCellArray (E.heading.attr m) sq (getValue E.heading.names r m))), ?_, ?_⟩
    · unfold fetchAll
      rw [hfull]
      rfl
    · rw [← Except.ok.inj h]
      subst hrows2
      rw [List.map_map, List.map_map]
      exact congrArg FetchResult.arr (congrArg _
        (List.map_congr_left (fun r _ => decoded_row_proj E asked sq r)))

/-- Frame-format analogue of `fetchAll_proj_arr`. -/
lemma fetchAll_proj_frame (E : Expression) (asked : List String) (limit2 offset : Option Nat)
    (order2 : Option (List String)) (sq : Bool) (result : FetchResult)
    (h : fetchAll (E.proj asked) limit2 offset order2 (some "frame") false sq = .ok result) :
    ∃ R, fetchAll E limit2 offset order2 (some "frame") false sq =
        .ok (.frame (mkFrame E.heading.primary_key E.heading.names R)) ∧
      result = .frame (mkFrame E.heading.primary_key (E.proj asked).heading.names
        (R.map (fun r =>
          (E.proj asked).heading.names.map (fun n => getValue E.heading.names r n)))) := by
  unfold fetchAll at h
  cases hcur : (E.proj asked).cursorRows limit2 offset order2 with
  | error e => rw [hcur] at h; exact absurd h (by simp)
  | ok rows2 =>
    rw [hcur] at h
    replace h : (Except.ok (FetchResult.frame
        (mkFrame (E.proj asked).heading.primary_key (E.proj asked).heading.names
          (rows2.map (fun r => (E.proj asked).heading.names.map (fun n =>
            decodeCellArray ((E.proj asked).heading.attr n) sq
              (getValue (E.proj asked).heading.names r n)))))) :
        Except DJError FetchResult) = .ok result := h
    obtain ⟨rows, hfull, hrows2⟩ := cursorRows_proj E asked limit2 offset order2 rows2 hcur
    refine ⟨rows.map (fun r => E.heading.names.map (fun m =>
      decodeCellArray (E.heading.attr m) sq (getValue E.heading.names r m))), ?_, ?_⟩
    · unfold fetchAll
      rw [hfull]
      rfl
    · rw [← Except.ok.inj h, proj_primary_key]
      subst hrows2
      rw [List.map_map, List.map_map]
      exact congrArg FetchResult.frame (congrArg _
        (List.map_congr_left (fun r _ => decoded_row_proj E asked sq r)))

lemma expand_relist (pk : List String) (ob : Option OrderArg)
    (hpk : ∀ n ∈ pk, markerSafe n) :
    expandOrderBy pk ((expandOrderBy pk ob).map OrderArg.list) = expandOrderBy pk ob := by
  cases ob with
  | none => rfl
  | some oa =>
    cases oa with
    | str s =>
      show some (flatten_attribute_list pk (flatten_attribute_list pk [s])) =
        some (flatten_attribute_list pk [s])
      rw [flatten_idem pk [s] hpk]
    | list l =>
      show some (flatten_attribute_list pk (flatten_attribute_list pk l)) =
        some (flatten_attribute_list pk l)
      rw [flatten_idem pk l hpk]

lemma limit_default_stable (limit offset : Option Nat) (n : Nat) :
    ((if (limit.isNone && offset.isSome) = true then some n else limit).isNone &&
      offset.isSome) = false := by
  cases limit <;> cases offset <;> simp

/-- A no-attribute fetch with `as_dict=False`, no explicit format and a
valid configured default is the fetchAll run at the defaulted limit, paired
with the offset warning when it applies. -/
lemma fetchNoAttrs_valid_eq (cfg : String) (E : Expression) (offset limit : Option Nat)
    (ob : Option OrderArg) (sq : Bool) (hcfg : cfg = "array" ∨ cfg = "frame") :
    fetchNoAttrs cfg E offset limit ob none false sq =
      (fetchAll E
        (if (limit.isNone && offset.isSome) = true then some (2 * E.data.length) else limit)
        offset (expandOrderBy E.heading.primary_key ob) (some cfg) false sq).map
        (fun res =>
          ((if (limit.isNone && offset.isSome) = true then [offsetWarning] else []), res)) := by
  unfold fetchNoAttrs resolveFormat
  rw [if_neg (by simp)]
  rw [if_neg (not_not_intro (Or.inl rfl))]
  rw [if_pos (by simp)]
  rw [if_pos hcfg]
  show (match fetchAll E
      (if (limit.isNone && offset.isSome) = true then some (2 * E.data.length) else limit)
      offset (expandOrderBy E.heading.primary_key ob) (some cfg) false sq with
    | Except.error e => Except.error e
    | Except.ok res =>
      Except.ok
        ((if (limit.isNone && offset.isSome) = true then [offsetWarning] else []), res)) = _
  cases fetchAll E
      (if (limit.isNone && offset.isSome) = true then some (2 * E.data.length) else limit)
      offset (expandOrderBy E.heading.primary_key ob) (some cfg) false sq <;> rfl

lemma collectColumns_key (pk : List String) (result : FetchResult) :
    collectColumns pk result [AttrArg.name "KEY"] =
      match result.getKeyDicts pk with
      | .error e => .error e
      | .ok ds => .ok [ColumnResult.keyDicts ds] := by
  show (match (result.getKeyDicts pk).map ColumnResult.keyDicts with
    | Except.error e => Except.error e
    | Except.ok c =>
      match (Except.ok [] : Except DJError (List ColumnResult)) with
      | Except.error e => Except.error e
      | Except.ok cs => Except.ok (c :: cs)) = _
  cases result.getKeyDicts pk <;> rfl

lemma collectColumns_name (pk : List String) (result : FetchResult) (a : String)
    (ha : a ≠ "KEY") :
    collectColumns pk result [AttrArg.name a] =
      match result.getCol a with
      | .error e => .error e
      | .ok col => .ok [ColumnResult.col col] := by
  have hk : is_key (AttrArg.name a) = false := by simp [is_key, ha]
  simp only [collectColumns, hk, Bool.false_eq_true, if_false, AttrArg.getName]
  cases result.getCol a <;> rfl

/-- C8 counterexample: with the configured default fetch format "frame", the
primary-key columns sit in the frame index of the intermediate container, so
fetch("KEY") raises a column-lookup error instead of returning the list of
primary-key dicts. -/
theorem C8_counterexample :
    Fetch.call "frame" exA [AttrArg.name "KEY"] none none none none false false =
      .error (.collab "Unknown columns in selection") := by
  decide

/-- C8 (amended): when the configured default fetch format is "array",
whenever fetch("KEY") on a wellformed expression returns, it returns
directly (unwrapped) a list of dicts whose keys are exactly the primary-key
names, one per result row and aligned row-for-row with the record array that
fetch() with no arguments and the same offset, limit and order_by returns,
with the same warnings. -/
theorem C8_key_fetch_array (E : Expression) (offset limit : Option Nat)
    (ob : Option OrderArg) (sq : Bool) (hwf : E.WF) (w : List String)
    (L : List (List (String × Value)))
    (h : Fetch.call "array" E [AttrArg.name "KEY"] offset limit ob none false sq =
      .ok (w, FetchResult.single (ColumnResult.keyDicts L))) :
    ∃ A : RecArray,
      Fetch.call "array" E [] offset limit ob none false sq = .ok (w, FetchResult.arr A) ∧
      A.names = E.heading.names ∧
      L.length = A.rows.length ∧
      L = A.rows.map (fun r =>
        E.heading.primary_key.map (fun n => (n, getValue A.names r n))) ∧
      (∀ d ∈ L, d.map Prod.fst = E.heading.primary_key) := by
  have hpk : ∀ n ∈ E.heading.primary_key, markerSafe n := hwf.2.2.2.2.2.1
  replace h : (match fetchNoAttrs "array" (E.proj []) offset
      (if (limit.isNone && offset.isSome) = true then some (2 * E.data.length) else limit)
      ((expandOrderBy E.heading.primary_key ob).map OrderArg.list) none false sq with
    | Except.error e => (Except.error e : Except DJError (List String × FetchResult))
    | Except.ok (w2, result) =>
      match collectColumns E.heading.primary_key result [AttrArg.name "KEY"] with
      | Except.error e => Except.error e
      | Except.ok cols =>
        Except.ok
          ((if (limit.isNone && offset.isSome) = true then [offsetWarning] else []) ++ w2,
            FetchResult.single (cols.getD 0 (ColumnResult.col [])))) =
    .ok (w, FetchResult.single (ColumnResult.keyDicts L)) := h
  cases hin : fetchNoAttrs "array" (E.proj []) offset
      (if (limit.isNone && offset.isSome) = true then some (2 * E.data.length) else limit)
      ((expandOrderBy E.heading.primary_key ob).map OrderArg.list) none false sq with
  | error e => rw [hin] at h; exact absurd h (by simp)
  | ok p =>
    obtain ⟨w2, result⟩ := p
    rw [hin] at h
    replace h : (match collectColumns E.heading.primary_key result [AttrArg.name "KEY"] with
      | Except.error e => (Except.error e : Except DJError (List String × FetchResult))
      | Except.ok cols =>
        Except.ok
          ((if (limit.isNone && offset.isSome) = true then [offsetWarning] else []) ++ w2,
            FetchResult.single (cols.getD 0 (ColumnResult.col [])))) =
      .ok (w, FetchResult.single (ColumnResult.keyDicts L)) := h
    rw [collectColumns_key] at h
    cases hkd : result.getKeyDicts E.heading.primary_key with
    | error e => rw [hkd] at h; exact absurd h (by simp)
    | ok ds =>
      rw [hkd] at h
      replace h : (Except.ok
          ((if (limit.isNone && offset.isSome) = true then [offsetWarning] else []) ++ w2,
            FetchResult.single (ColumnResult.keyDicts ds)) :
          Except DJError (List String × FetchResult)) =
        .ok (w, FetchResult.single (ColumnResult.keyDicts L)) := h
      simp only [Except.ok.injEq, Prod.mk.injEq, FetchResult.single.injEq,
        ColumnResult.keyDicts.injEq] at h
      obtain ⟨hw, hds⟩ := h
      subst hds
      rw [fetchNoAttrs_valid_eq "array" (E.proj []) offset _ _ sq (Or.inl rfl)] at hin
      rw [proj_primary_key, expand_relist E.heading.primary_key ob hpk,
        limit_default_stable limit offset (2 * E.data.length)] at hin
      simp only [Bool.false_eq_true, if_false] at hin
      cases hfa : fetchAll (E.proj [])
          (if (limit.isNone && offset.isSome) = true then some (2 * E.data.length) else limit)
          offset (expandOrderBy E.heading.primary_key ob) (some "array") false sq with
      | error e => rw [hfa] at hin; exact absurd hin (by simp [Except.map])
      | ok res =>
        rw [hfa] at hin
        replace hin : (Except.ok (([] : List String), res) :
            Except DJError (List String × FetchResult)) = .ok (w2, result) := hin
        simp only [Except.ok.injEq, Prod.mk.injEq] at hin
        obtain ⟨hw2, hres⟩ := hin
        subst hres
        obtain ⟨R, hfull, hresult⟩ := fetchAll_proj_arr E [] _ offset _ sq res hfa
        subst hresult
        replace hkd : (if (E.heading.primary_key.all
              (fun n => (E.proj []).heading.names.contains n)) = true then
            Except.ok ((R.map (fun r =>
              (E.proj []).heading.names.map (fun n => getValue E.heading.names r n))).map
                (fun r => E.heading.primary_key.map (fun n =>
                  (n, getValue (E.proj []).heading.names r n))))
          else (Except.error (DJError.collab "Unknown columns in selection") :
            Except DJError (List (List (String × Value))))) = .ok ds := hkd
        by_cases hall : (E.heading.primary_key.all
            (fun n => (E.proj []).heading.names.contains n)) = true
        case neg => rw [if_neg hall] at hkd; exact absurd hkd (by simp)
        case pos =>
          rw [if_pos hall] at hkd
          replace hkd := (Except.ok.inj hkd).symm
          have hdsR : ds = R.map (fun r =>
              E.heading.primary_key.map (fun n => (n, getValue E.heading.names r n))) := by
            rw [hkd, List.map_map]
            refine List.map_congr_left (fun r _ => ?_)
            refine List.map_congr_left (fun n hn => ?_)
            have hmem : n ∈ (E.proj []).heading.names :=
              List.elem_iff.mp (List.all_eq_true.mp hall n hn)
            exact congrArg (fun v => (n, v)) (getValue_map_self _ _ n hmem)
          refine ⟨{ names := E.heading.names, rows := R }, ?_, rfl, ?_, ?_, ?_⟩
          · show fetchNoAttrs "array" E offset limit ob none false sq = _
            rw [fetchNoAttrs_valid_eq "array" E offset limit ob sq (Or.inl rfl), hfull]
            subst hw2
            rw [List.append_nil] at hw
            subst hw
            rfl
          · rw [hdsR, List.length_map]
          · exact hdsR
          · intro d hd
            rw [hdsR] at hd
            obtain ⟨r, -, hrd⟩ := List.mem_map.mp hd
            rw [← hrd, List.map_map]
            exact List.map_id'' (fun x => rfl) _

/-- Witness for C8 (amended) on the two-row example expression. -/
theorem C8_key_fetch_array_witness :
    ∃ A : RecArray,
      Fetch.call "array" exA [] none none none none false false =
        .ok ([], FetchResult.arr A) ∧
      A.names = exA.heading.names ∧
      ([[("id", Value.raw "2")], [("id", Value.raw "1")]] :
        List (List (String × Value))).length = A.rows.length ∧
      ([[("id", Value.raw "2")], [("id", Value.raw "1")]] :
        List (List (String × Value))) = A.rows.map (fun r =>
          exA.heading.primary_key.map (fun n => (n, getValue A.names r n))) ∧
      (∀ d ∈ ([[("id", Value.raw "2")], [("id", Value.raw "1")]] :
        List (List (String × Value))), d.map Prod.fst = exA.heading.primary_key) :=
  C8_key_fetch_array exA none none none false (by decide) []
    [[("id", Value.raw "2")], [("id", Value.raw "1")]] (by decide)

lemma arr_getCol_ok (ns : List String) (rows : List (List Value)) (a : String)
    (vs : List Value)
    (h : (FetchResult.arr { names := ns, rows := rows }).getCol a = .ok vs) :
    a ∈ ns ∧ vs = rows.map (fun r => getValue ns r a) := by
  replace h : (if ns.contains a = true then
      Except.ok (rows.map (fun r => getValue ns r a))
    else (Except.error (DJError.collab ("Unknown column " ++ a)) :
      Except DJError (List Value))) = .ok vs := h
  by_cases hc : ns.contains a = true
  · rw [if_pos hc] at h
    exact ⟨List.elem_iff.mp hc, (Except.ok.inj h).symm⟩
  · rw [if_neg hc] at h
    exact absurd h (by simp)

lemma arr_getCol_eval (ns : List String) (rows : List (List Value)) (a : String)
    (hmem : a ∈ ns) :
    (FetchResult.arr { names := ns, rows := rows }).getCol a =
      .ok (rows.map (fun r => getValue ns r a)) := by
  show (if ns.contains a = true then
      Except.ok (rows.map (fun r => getValue ns r a))
    else (Except.error (DJError.collab ("Unknown column " ++ a)) :
      Except DJError (List Value))) = _
  rw [if_pos (List.elem_iff.mpr hmem)]

lemma frame_getCol_ok (pk ns : List String) (rows : List (List Value)) (a : String)
    (vs : List Value)
    (h : (FetchResult.frame (mkFrame pk ns rows)).getCol a = .ok vs) :
    a ∈ ns.filter (fun n => ! pk.contains n) ∧
      vs = rows.map (fun r => getValue ns r a) := by
  replace h : (if ((ns.filter (fun n => ! pk.contains n)).contains a) = true then
      Except.ok ((rows.map (fun r => (ns.filter (fun n => ! pk.contains n)).map
        (fun n => getValue ns r n))).map (fun r =>
          getValue (ns.filter (fun n => ! pk.contains n)) r a))
    else (Except.error (DJError.collab ("Unknown column " ++ a)) :
      Except DJError (List Value))) = .ok vs := h
  by_cases hc : ((ns.filter (fun n => ! pk.contains n)).contains a) = true
  · rw [if_pos hc] at h
    have hmem := List.elem_iff.mp hc
    refine ⟨hmem, ?_⟩
    rw [← Except.ok.inj h, List.map_map]
    exact List.map_congr_left (fun r _ => getValue_map_self _ _ a hmem)
  · rw [if_neg hc] at h
    exact absurd h (by simp)

lemma frame_getCol_eval (pk ns : List String) (rows : List (List Value)) (a : String)
    (hmem : a ∈ ns.filter (fun n => ! pk.contains n)) :
    (FetchResult.frame (mkFrame pk ns rows)).getCol a =
      .ok (rows.map (fun r => getValue ns r a)) := by
  show (if ((ns.filter (fun n => ! pk.contains n)).contains a) = true then
      Except.ok ((rows.map (fun r => (ns.filter (fun n => ! pk.contains n)).map
        (fun n => getValue ns r n))).map (fun r =>
          getValue (ns.filter (fun n => ! pk.contains n)) r a))
    else (Except.error (DJError.collab ("Unknown column " ++ a)) :
      Except DJError (List Value))) = _
  rw [if_pos (List.elem_iff.mpr hmem), List.map_map]
  exact congrArg Except.ok (List.map_congr_left (fun r _ => getValue_map_self _ _ a hmem))

lemma fetchNoAttrs_ok_cfg (cfg : String) (E : Expression) (offset limit : Option Nat)
    (ob : Option OrderArg) (sq : Bool) (p : List String × FetchResult)
    (h : fetchNoAttrs cfg E offset limit ob none false sq = .ok p) :
    cfg = "array" ∨ cfg = "frame" := by
  by_contra hc
  push_neg at hc
  unfold fetchNoAttrs resolveFormat at h
  rw [if_neg (by simp), if_neg (not_not_intro (Or.inl rfl)), if_pos (by simp),
    if_neg (fun hor => hor.elim hc.1 hc.2)] at h
  exact absurd h (by simp)

/-- C9: for a single non-key attribute, whenever fetch(a) returns a column,
the no-attribute fetch with the same offset, limit and order_by succeeds
with the same warnings, and extracting column a from its result yields
exactly the same decoded values in the same row order. -/
theorem C9_single_attr_column (cfg : String) (E : Expression) (a : String)
    (offset limit : Option Nat) (ob : Option OrderArg) (sq : Bool)
    (hwf : E.WF) (ha : a ≠ "KEY") (w : List String) (vs : List Value)
    (h : Fetch.call cfg E [AttrArg.name a] offset limit ob none false sq =
      .ok (w, FetchResult.single (ColumnResult.col vs))) :
    ∃ res, Fetch.call cfg E [] offset limit ob none false sq = .ok (w, res) ∧
      res.getCol a = .ok vs := by
  have hpk : ∀ n ∈ E.heading.primary_key, markerSafe n := hwf.2.2.2.2.2.1
  have hattrs : ([AttrArg.name a].filter (fun x => ! is_key x)).map AttrArg.getName = [a] := by
    simp [is_key, ha, AttrArg.getName]
  replace h : (match fetchNoAttrs cfg
      (E.proj (([AttrArg.name a].filter (fun x => ! is_key x)).map AttrArg.getName)) offset
      (if (limit.isNone && offset.isSome) = true then some (2 * E.data.length) else limit)
      ((expandOrderBy E.heading.primary_key ob).map OrderArg.list) none false sq with
    | Except.error e => (Except.error e : Except DJError (List String × FetchResult))
    | Except.ok (w2, result) =>
      match collectColumns E.heading.primary_key result [AttrArg.name a] with
      | Except.error e => Except.error e
      | Except.ok cols =>
        Except.ok
          ((if (limit.isNone && offset.isSome) = true then [offsetWarning] else []) ++ w2,
            FetchResult.single (cols.getD 0 (ColumnResult.col [])))) =
    .ok (w, FetchResult.single (ColumnResult.col vs)) := h
  rw [hattrs] at h
  cases hin : fetchNoAttrs cfg (E.proj [a]) offset
      (if (limit.isNone && offset.isSome) = true then some (2 * E.data.length) else limit)
      ((expandOrderBy E.heading.primary_key ob).map OrderArg.list) none false sq with
  | error e => rw [hin] at h; exact absurd h (by simp)
  | ok p =>
    obtain ⟨w2, result⟩ := p
    rw [hin] at h
    replace h : (match collectColumns E.heading.primary_key result [AttrArg.name a] with
      | Except.error e => (Except.error e : Except DJError (List String × FetchResult))
      | Except.ok cols =>
        Except.ok
          ((if (limit.isNone && offset.isSome) = true then [offsetWarning] else []) ++ w2,
            FetchResult.single (cols.getD 0 (ColumnResult.col [])))) =
      .ok (w, FetchResult.single (ColumnResult.col vs)) := h
    rw [collectColumns_name E.heading.primary_key result a ha] at h
    cases hcol : result.getCol a with
    | error e => rw [hcol] at h; exact absurd h (by simp)
    | ok col =>
      rw [hcol] at h
      replace h : (Except.ok
          ((if (limit.isNone && offset.isSome) = true then [offsetWarning] else []) ++ w2,
            FetchResult.single (ColumnResult.col col)) :
          Except DJError (List String × FetchResult)) =
        .ok (w, FetchResult.single (ColumnResult.col vs)) := h
      simp only [Except.ok.injEq, Prod.mk.injEq, FetchResult.single.injEq,
        ColumnResult.col.injEq] at h
      obtain ⟨hw, hcv⟩ := h
      subst hcv
      have hcfg := fetchNoAttrs_ok_cfg cfg (E.proj [a]) offset _ _ sq _ hin
      rw [fetchNoAttrs_valid_eq cfg (E.proj [a]) offset _ _ sq hcfg] at hin
      rw [proj_primary_key, expand_relist E.heading.primary_key ob hpk,
        limit_default_stable limit offset (2 * E.data.length)] at hin
      simp only [Bool.false_eq_true, if_false] at hin
      cases hfa : fetchAll (E.proj [a])
          (if (limit.isNone && offset.isSome) = true then some (2 * E.data.length) else limit)
          offset (expandOrderBy E.heading.primary_key ob) (some cfg) false sq with
      | error e => rw [hfa] at hin; exact absurd hin (by simp [Except.map])
      | ok res =>
        rw [hfa] at hin
        replace hin : (Except.ok (([] : List String), res) :
            Except DJError (List String × FetchResult)) = .ok (w2, result) := hin
        simp only [Except.ok.injEq, Prod.mk.injEq] at hin
        obtain ⟨hw2, hres⟩ := hin
        subst hres
        subst hw2
        rw [List.append_nil] at hw
        subst hw
        rcases hcfg with rfl | rfl
        · obtain ⟨R, hfull, hresult⟩ := fetchAll_proj_arr E [a] _ offset _ sq res hfa
          subst hresult
          obtain ⟨hmem, hvals⟩ := arr_getCol_ok _ _ a _ hcol
          refine ⟨FetchResult.arr { names := E.heading.names, rows := R }, ?_, ?_⟩
          · show fetchNoAttrs "array" E offset limit ob none false sq = _
            rw [fetchNoAttrs_valid_eq "array" E offset limit ob sq (Or.inl rfl), hfull]
            rfl
          · have hmemfull : a ∈ E.heading.names := ((mem_proj_names E [a] a).mp hmem).1
            rw [arr_getCol_eval E.heading.names R a hmemfull, hvals, List.map_map]
            exact congrArg Except.ok
              (List.map_congr_left (fun r _ => (getValue_map_self _ _ a hmem).symm))
        · obtain ⟨R, hfull, hresult⟩ := fetchAll_proj_frame E [a] _ offset _ sq res hfa
          subst hresult
          obtain ⟨hmem, hvals⟩ := frame_getCol_ok _ _ _ a _ hcol
          have hmem2 := List.mem_filter.mp hmem
          have hmemN : a ∈ E.heading.names := ((mem_proj_names E [a] a).mp hmem2.1).1
          have hmemfull : a ∈ E.heading.names.filter
              (fun n => ! E.heading.primary_key.contains n) :=
            List.mem_filter.mpr ⟨hmemN, hmem2.2⟩
          refine ⟨FetchResult.frame (mkFrame E.heading.primary_key E.heading.names R),
            ?_, ?_⟩
          · show fetchNoAttrs "frame" E offset limit ob none false sq = _
            rw [fetchNoAttrs_valid_eq "frame" E offset limit ob sq (Or.inr rfl), hfull]
            rfl
          · rw [frame_getCol_eval _ _ _ a hmemfull, hvals, List.map_map]
            exact congrArg Except.ok
              (List.map_congr_left (fun r _ => (getValue_map_self _ _ a hmem2.1).symm))

/-- Witness for C9 on the two-row example expression. -/
theorem C9_single_attr_column_witness :
    ∃ res, Fetch.call "array" exA [] none none none none false false =
        .ok ([], res) ∧
      res.getCol "name" = .ok [Value.raw "b", Value.raw "a"] :=
  C9_single_attr_column "array" exA "name" none none none false (by decide) (by decide)
    [] [Value.raw "b", Value.raw "a"] (by decide)
